import Mathlib

/-!
Shallow embedding of the dgt-app CSV ingestion and query-building core
(src/services/database.py, src/services/csv_importer.py,
src/ui/main_window_ui.py) together with theorems settling the spec claims.

Strings are modelled as Lean `String` (lists of characters); machine
integers do not occur (Python ints are unbounded, modelled as `Int`/`Nat`).
-/

/-- ASCII decimal digit test (Python `\d` / `str.isdigit` restricted to the
ASCII digits actually produced by the data this program handles). -/
def isDig (c : Char) : Bool := 48 ≤ c.toNat && c.toNat ≤ 57

/-- Python whitespace test for `str.strip` (space, tab, newline, carriage
return, vertical tab, form feed). -/
def pyIsSpace (c : Char) : Bool :=
  c = ' ' || c = '\t' || c = '\n' || c = '\r' || c.toNat = 11 || c.toNat = 12

/-- Python `str.strip()` on the character list. -/
def pyStripChars (l : List Char) : List Char :=
  ((l.dropWhile pyIsSpace).reverse.dropWhile pyIsSpace).reverse

/-- Python `str.strip()`. -/
def pyStrip (s : String) : String := ⟨pyStripChars s.data⟩

/-- Python `str.lower()` restricted to Basic Latin and Latin-1 letters
(the only characters this application's headers contain): ASCII upper-case
letters and the Latin-1 capitals U+00C0..U+00DE (except the multiplication
sign U+00D7) map 32 code points up; everything else is unchanged. -/
def pyLowerChar (c : Char) : Char :=
  if 65 ≤ c.toNat ∧ c.toNat ≤ 90 then Char.ofNat (c.toNat + 32)
  else if 192 ≤ c.toNat ∧ c.toNat ≤ 222 ∧ c.toNat ≠ 215 then Char.ofNat (c.toNat + 32)
  else c

/-- Python `str.lower()` on a whole string. -/
def pyLowerStr (s : String) : String := ⟨s.data.map pyLowerChar⟩

/-- Python regex `\w` (word character) for Basic Latin and Latin-1:
ASCII letters, digits, underscore, and the Latin-1 letters U+00C0..U+00FF
other than the multiplication and division signs. -/
def pyIsWordChar (c : Char) : Bool :=
  (65 ≤ c.toNat && c.toNat ≤ 90) || (97 ≤ c.toNat && c.toNat ≤ 122) || isDig c || c = '_' ||
    (192 ≤ c.toNat && c.toNat ≤ 255 && c.toNat ≠ 215 && c.toNat ≠ 247)

/-- The accent folding performed by `sanitize_column`: the five lower-case
accented vowels are replaced by their unaccented ASCII equivalents. -/
def foldAccent (c : Char) : Char :=
  if c = 'á' then 'a'
  else if c = 'é' then 'e'
  else if c = 'í' then 'i'
  else if c = 'ó' then 'o'
  else if c = 'ú' then 'u'
  else c

/-- First regex pass of `sanitize_column`, `re.sub(r"[^\w]+", "_", s)`,
modelled character-wise: each non-word character becomes an underscore.
Composed with `collapseUnderscores` (the second pass, which collapses every
run of underscores) this yields exactly the two-pass result of the code:
every maximal run of non-word or underscore characters collapses to a
single underscore. -/
def subNonWord (l : List Char) : List Char :=
  l.map (fun c => if pyIsWordChar c then c else '_')

/-- Python `re.sub(r"_+", "_", s)`: collapse runs of underscores. -/
def collapseUnderscores : List Char → List Char
  | [] => []
  | [c] => [c]
  | c :: d :: rest =>
    if c = '_' && d = '_' then collapseUnderscores (d :: rest)
    else c :: collapseUnderscores (d :: rest)

/-- Python `s.strip("_")` on a character list. -/
def stripUnderscores (l : List Char) : List Char :=
  ((l.dropWhile (fun d => d = '_')).reverse.dropWhile (fun d => d = '_')).reverse

/-- services/database.py `sanitize_column`: trim, lower-case, fold accented
vowels, collapse non-word runs to single underscores, collapse repeated
underscores, strip surrounding underscores, substitute "col" for an empty
result, and prefix "c_" when the result starts with a digit. -/
def sanitize_column (name : String) : String :=
  let cleaned := (pyStripChars name.data).map pyLowerChar
  let cleaned := cleaned.map foldAccent
  let cleaned := subNonWord cleaned
  let cleaned := collapseUnderscores cleaned
  let cleaned := stripUnderscores cleaned
  let cleaned := if cleaned.isEmpty then ['c', 'o', 'l'] else cleaned
  let cleaned := if (cleaned.head?.elim false isDig) then 'c' :: '_' :: cleaned else cleaned
  ⟨cleaned⟩

/-- C7 counterexample: the claim says sanitize of the header "Año" is an
ASCII identifier with no accented characters, but the code only folds the
five accented vowels, so the letter eñe survives: the result is "año",
which contains the non-ASCII character U+00F1. -/
theorem sanitize_anio_not_ascii :
    sanitize_column "Año" = "año" ∧
      (sanitize_column "Año").data.any (fun c => 128 ≤ c.toNat) = true := by
  constructor <;> decide

/-- C7 (amended): sanitize of "Año" is the identifier "año": lower-cased
and safe as a column name (word characters only, non-empty, not
digit-initial), but not pure ASCII, because the letter eñe is not in the
fixed accent-folding set. -/
theorem sanitize_anio_amended :
    sanitize_column "Año" = "año" ∧
      (sanitize_column "Año").data.all pyIsWordChar = true ∧
      (sanitize_column "Año").data ≠ [] ∧
      ('ñ' ∈ (sanitize_column "Año").data ∧ 128 ≤ 'ñ'.toNat) := by
  refine ⟨by decide, by decide, by decide, by decide, by decide⟩

/-! ## Python dict and substring primitives -/

/-- Python dict insertion semantics: an existing key keeps its position and
has its value overwritten; a new key is appended. -/
def dictInsert (d : List (String × String)) (k v : String) : List (String × String) :=
  if d.any (fun kv => kv.1 == k) then d.map (fun kv => if kv.1 == k then (k, v) else kv)
  else d ++ [(k, v)]

/-- A Python dict built from a sequence of key/value pairs (later pairs with
the same key overwrite earlier ones). -/
def dictOfPairs (ps : List (String × String)) : List (String × String) :=
  ps.foldl (fun d kv => dictInsert d kv.1 kv.2) []

/-- Python `d.get(k)` returning None when absent. -/
def dictGet (d : List (String × String)) (k : String) : Option String :=
  (d.find? (fun kv => kv.1 == k)).map (fun kv => kv.2)

/-- Whether the second list is a prefix of the first argument order:
`charsStartWith needle hay` is true when `hay` starts with `needle`. -/
def charsStartWith : List Char → List Char → Bool
  | [], _ => true
  | _ :: _, [] => false
  | a :: as, b :: bs => a == b && charsStartWith as bs

/-- Substring containment on character lists: true when `needle` occurs
contiguously inside `hay` (Python `needle in hay` on strings). -/
def charsContain : List Char → List Char → Bool
  | [], needle => needle.isEmpty
  | a :: rest, needle => charsStartWith needle (a :: rest) || charsContain rest needle

/-- Python `pat in key` for strings: `strContains key pat`. -/
def strContains (hay pat : String) : Bool := charsContain hay.data pat.data

/-! ## services/database.py `find_standard_columns` -/

/-- The `candidates` dict of `find_standard_columns`: lowercased column name
to original column name, built left to right with Python dict semantics
(a duplicate lowercased name keeps its first position but the stored
original is overwritten by the later column). -/
def lowerDict (columns : List String) : List (String × String) :=
  columns.foldl (fun d c => dictInsert d (pyLowerStr c) c) []

/-- The inner `pick` of `find_standard_columns`: try each candidate pattern
in priority order and return the stored original of the first dict entry
whose (lowercased) key contains the pattern. -/
def pick (candidates : List (String × String)) : List String → Option String
  | [] => none
  | pat :: rest =>
    match candidates.find? (fun kv => strContains kv.1 pat) with
    | some kv => some kv.2
    | none => pick candidates rest

/-- The standard column map: each semantic role resolved to a physical
column name or None. -/
structure StdCols where
  month : Option String
  year : Option String
  province : Option String
  exam_center : Option String
  exam_type : Option String
  driving_school : Option String
  permit : Option String
  num_aptos : Option String
  num_no_aptos : Option String
deriving Repr, DecidableEq

/-- services/database.py `find_standard_columns`. -/
def find_standard_columns (columns : List String) : StdCols :=
  let candidates := lowerDict columns
  { month := pick candidates ["mes", "month"]
    year := pick candidates ["anyo", "anio", "año", "year"]
    province := pick candidates ["desc_provincia", "prov", "provincia"]
    exam_center := pick candidates ["centro_examen", "exam_center", "centro"]
    exam_type := pick candidates ["tipo_examen", "exam_type", "prueba", "tipo"]
    driving_school := pick candidates ["nombre_autoescuela", "autoescuela", "driving_school", "escuela"]
    permit := pick candidates ["nombre_permiso", "permiso"]
    num_aptos := pick candidates ["num_aptos"]
    num_no_aptos := pick candidates ["num_no_aptos"] }

/-- The nine role values of a standard column map, in declaration order. -/
def stdRoles (sc : StdCols) : List (Option String) :=
  [sc.month, sc.year, sc.province, sc.exam_center, sc.exam_type,
   sc.driving_school, sc.permit, sc.num_aptos, sc.num_no_aptos]

theorem mem_dictInsert {d : List (String × String)} {k v : String} {kv : String × String}
    (h : kv ∈ dictInsert d k v) : kv ∈ d ∨ kv = (k, v) := by
  unfold dictInsert at h
  split at h
  · rcases List.mem_map.1 h with ⟨p, hp, heq⟩
    split at heq
    · exact Or.inr heq.symm
    · exact Or.inl (heq ▸ hp)
  · rcases List.mem_append.1 h with h1 | h1
    · exact Or.inl h1
    · exact Or.inr (List.mem_singleton.1 h1)

theorem mem_foldl_dictInsert (cols : List String) :
    ∀ (init : List (String × String)) (kv : String × String),
      kv ∈ cols.foldl (fun d c => dictInsert d (pyLowerStr c) c) init →
      kv ∈ init ∨ kv.2 ∈ cols := by
  induction cols with
  | nil => intro init kv h; exact Or.inl h
  | cons c cs ih =>
    intro init kv h
    simp only [List.foldl_cons] at h
    rcases ih _ _ h with h1 | h1
    · rcases mem_dictInsert h1 with h2 | h2
      · exact Or.inl h2
      · right; subst h2; exact List.mem_cons_self _ _
    · right; exact List.mem_cons_of_mem _ h1

theorem mem_lowerDict {columns : List String} {kv : String × String}
    (h : kv ∈ lowerDict columns) : kv.2 ∈ columns := by
  rcases mem_foldl_dictInsert columns [] kv h with h1 | h1
  · cases h1
  · exact h1

theorem pick_mem {candidates : List (String × String)} {v : String} :
    ∀ {pats : List String}, pick candidates pats = some v →
      ∃ kv ∈ candidates, kv.2 = v := by
  intro pats
  induction pats with
  | nil => intro h; cases h
  | cons p ps ih =>
    intro h
    unfold pick at h
    split at h
    · rename_i kv hkv
      exact ⟨kv, List.mem_of_find?_eq_some hkv, Option.some_injective _ h⟩
    · exact ih h

/-- C9 counterexample: with the input column list ["Mes", "MES"] both
columns lower-case to "mes", the dict comprehension keeps a single entry
whose stored original is the LAST such column, so the month role resolves
to "MES" — not to "Mes", the first column in input-list order whose
lowercased name contains the substring, as the claim states. -/
theorem find_standard_columns_duplicate_cex :
    (find_standard_columns ["Mes", "MES"]).month = some "MES" ∧
      List.find? (fun c => strContains (pyLowerStr c) "mes") ["Mes", "MES"] = some "Mes" ∧
      ("MES" : String) ≠ "Mes" := by
  refine ⟨by decide, by decide, by decide⟩

/-- C9 (amended): `find_standard_columns` returns exactly the nine role
keys; each role maps to None or to an element of the input list, found by
trying the role's candidate substrings in priority order over the dict of
lowercased names (keyed in first-occurrence order) — but when several
input columns share a lowercased name, the stored original is the last
such column, not the first. -/
theorem find_standard_columns_amended (columns : List String) :
    (∀ o ∈ stdRoles (find_standard_columns columns), ∀ v, o = some v → v ∈ columns) ∧
      (find_standard_columns ["Mes", "MES"]).month = some "MES" := by
  constructor
  · have hroles : stdRoles (find_standard_columns columns) =
        [pick (lowerDict columns) ["mes", "month"],
         pick (lowerDict columns) ["anyo", "anio", "año", "year"],
         pick (lowerDict columns) ["desc_provincia", "prov", "provincia"],
         pick (lowerDict columns) ["centro_examen", "exam_center", "centro"],
         pick (lowerDict columns) ["tipo_examen", "exam_type", "prueba", "tipo"],
         pick (lowerDict columns) ["nombre_autoescuela", "autoescuela", "driving_school", "escuela"],
         pick (lowerDict columns) ["nombre_permiso", "permiso"],
         pick (lowerDict columns) ["num_aptos"],
         pick (lowerDict columns) ["num_no_aptos"]] := rfl
    intro o ho v hv
    have hmem : ∀ pats, pick (lowerDict columns) pats = some v → v ∈ columns := by
      intro pats hp
      rcases pick_mem hp with ⟨kv, hkv, hkv2⟩
      exact hkv2 ▸ mem_lowerDict hkv
    rw [hroles] at ho
    simp only [List.mem_cons, List.not_mem_nil, or_false] at ho
    rcases ho with h | h | h | h | h | h | h | h | h
    all_goals subst h
    all_goals exact hmem _ hv
  · decide

/-- C9 amended witness at a concrete input. -/
theorem find_standard_columns_amended_witness :
    some "mes" ∈ stdRoles (find_standard_columns ["año", "mes"]) ∧
      "mes" ∈ (["año", "mes"] : List String) :=
  ⟨by decide, (find_standard_columns_amended ["año", "mes"]).1 (some "mes") (by decide) "mes" rfl⟩

/-! ## Integer parsing and rows -/

/-- Value of a non-empty all-digit character list, else None (the digits
part of Python `int`). -/
def digitsToNat? (l : List Char) : Option Nat :=
  if l ≠ [] ∧ l.all isDig then some (l.foldl (fun n c => 10 * n + (c.toNat - 48)) 0) else none

/-- Python `int(s)` for ordinary decimal strings: strip whitespace, an
optional sign, then decimal digits; anything else raises ValueError,
modelled as None. -/
def parseIntPy (s : String) : Option Int :=
  match pyStripChars s.data with
  | '+' :: rest => (digitsToNat? rest).map (fun n => (n : Int))
  | '-' :: rest => (digitsToNat? rest).map (fun n => -(n : Int))
  | l => (digitsToNat? l).map (fun n => (n : Int))

/-- A parsed CSV row: an ordered mapping from column name to raw text. -/
abbrev Row := List (String × String)

/-- Python `row.get(key, "")`. -/
def rowGet (row : Row) (k : String) : String := (dictGet row k).getD ""

/-- services/csv_importer.py `_parse_row_period`: parse the year and month
cells of one row; a falsy (missing or empty) key yields None, as does any
parse failure or a month outside 1..12. -/
def _parse_row_period (row : Row) (year_key month_key : Option String) : Option (Int × Int) :=
  match year_key, month_key with
  | some yk, some mk =>
    if yk.isEmpty || mk.isEmpty then none
    else
      match parseIntPy (pyStrip (rowGet row yk)), parseIntPy (pyStrip (rowGet row mk)) with
      | some y, some m => if 1 ≤ m ∧ m ≤ 12 then some (y, m) else none
      | _, _ => none
  | _, _ => none

/-! ## Period collections: Python sorted sets of (year, month) pairs -/

/-- Lexicographic order on (year, month) pairs — Python tuple ordering. -/
def pairLe (a b : Int × Int) : Prop := a.1 < b.1 ∨ (a.1 = b.1 ∧ a.2 ≤ b.2)

instance : DecidableRel pairLe := fun a b => by unfold pairLe; infer_instance

instance : IsTotal (Int × Int) pairLe := ⟨by intro a b; unfold pairLe; omega⟩

instance : IsTrans (Int × Int) pairLe := ⟨by intro a b c; unfold pairLe; omega⟩

/-- Python `sorted` on (year, month) pairs. -/
def sortPairs (l : List (Int × Int)) : List (Int × Int) := List.insertionSort pairLe l

/-- Adding one element to a Python set modelled as a duplicate-free list. -/
def insertIfAbsent (acc : List (Int × Int)) (p : Int × Int) : List (Int × Int) :=
  if p ∈ acc then acc else acc ++ [p]

/-- The set-accumulation loop shared by `_extract_periods_from_rows` and the
per-row dedup pass of `import_csv`: collect the parsed period of each row
into a set (here: a duplicate-free list in first-seen order). -/
def periodFold (rows : List Row) (yk mk : String) : List (Int × Int) :=
  rows.foldl (fun acc row =>
    match _parse_row_period row (some yk) (some mk) with
    | some p => insertIfAbsent acc p
    | none => acc) []

/-- services/csv_importer.py `_extract_periods_from_rows`: with resolvable
(truthy) year and month columns, parse each row (the inline parse is the
same logic as `_parse_row_period`), collect valid periods into a set, and
return them sorted ascending. -/
def _extract_periods_from_rows (rows : List Row) (mapping : StdCols) : List (Int × Int) :=
  match mapping.year, mapping.month with
  | some yc, some mc => if yc.isEmpty || mc.isEmpty then [] else sortPairs (periodFold rows yc mc)
  | _, _ => []

/-! ## Filename period extraction: `re.findall(r"(20\d\x7b2\x7d).?([01]?\d)", name)` -/

/-- Decimal value of a digit list (the digits are already validated). -/
def digitsVal (l : List Char) : Nat := l.foldl (fun n c => 10 * n + (c.toNat - 48)) 0

/-- Match of the month part `[01]?\d` at the current position (no optional
separator consumed): greedy, so a two-digit month starting with 0 or 1 is
preferred over a single digit. Returns the matched digits and the rest. -/
def monthNoDot : List Char → Option (List Char × List Char)
  | [] => none
  | [a] => if isDig a then some ([a], []) else none
  | a :: b :: rest =>
    if (a = '0' || a = '1') && isDig b then some ([a, b], rest)
    else if isDig a then some ([a], b :: rest)
    else none

/-- Match of `.?([01]?\d)`: the optional separator (any character except
newline) is consumed greedily first; on failure of the month group the
regex engine backtracks to an empty separator. -/
def monthTail (l : List Char) : Option (List Char × List Char) :=
  match l with
  | [] => none
  | a :: rest =>
    if a ≠ '\n' then
      match monthNoDot rest with
      | some r => some r
      | none => monthNoDot l
    else monthNoDot l

/-- Attempt to match `(20\d\x7b2\x7d).?([01]?\d)` at the head of the list;
on success returns the year, the month and the unconsumed rest. -/
def matchPeriodAt : List Char → Option (Int × Int × List Char)
  | '2' :: '0' :: d1 :: d2 :: rest =>
    if isDig d1 && isDig d2 then
      match monthTail rest with
      | some (mcs, rest2) =>
        some (((2000 + 10 * (d1.toNat - 48) + (d2.toNat - 48) : Nat) : Int),
          ((digitsVal mcs : Nat) : Int), rest2)
      | none => none
    else none
  | _ => none

/-- Python `re.findall` left-to-right non-overlapping scan of the period
pattern. `fuel` bounds the recursion; with `fuel = l.length` it never runs
out, since every step consumes at least one character. -/
def scanPeriods : Nat → List Char → List (Int × Int)
  | 0, _ => []
  | _ + 1, [] => []
  | fuel + 1, c :: rest =>
    match matchPeriodAt (c :: rest) with
    | some (y, m, rest2) => (y, m) :: scanPeriods fuel rest2
    | none => scanPeriods fuel rest

/-- POSIX `os.path.basename`: the part after the last slash. -/
def basename (s : String) : String :=
  ⟨(s.data.reverse.takeWhile (fun c => c ≠ '/')).reverse⟩

/-- services/csv_importer.py `_extract_periods_from_filename`: scan the
basename for year/month patterns and keep the matches whose month lies in
1..12, in match order. -/
def _extract_periods_from_filename (path : String) : List (Int × Int) :=
  let name := basename path
  (scanPeriods name.data.length name.data).filter (fun p => decide (1 ≤ p.2 ∧ p.2 ≤ 12))

/-! ## Lemmas about period collection -/

theorem mem_insertIfAbsent {acc : List (Int × Int)} {p q : Int × Int} :
    q ∈ insertIfAbsent acc p ↔ q ∈ acc ∨ q = p := by
  unfold insertIfAbsent
  split
  · constructor
    · exact Or.inl
    · rintro (h | rfl)
      · exact h
      · assumption
  · simp [List.mem_append]

theorem nodup_insertIfAbsent {acc : List (Int × Int)} (h : acc.Nodup) (p : Int × Int) :
    (insertIfAbsent acc p).Nodup := by
  unfold insertIfAbsent
  split
  · exact h
  · have := List.Nodup.concat (by assumption) h
    rwa [List.concat_eq_append] at this

theorem nodup_foldl_insert (rows : List Row) (yk mk : String) :
    ∀ init : List (Int × Int), init.Nodup →
      (rows.foldl (fun acc row =>
        match _parse_row_period row (some yk) (some mk) with
        | some p => insertIfAbsent acc p
        | none => acc) init).Nodup := by
  induction rows with
  | nil => intro init h; exact h
  | cons r rs ih =>
    intro init h
    simp only [List.foldl_cons]
    cases _parse_row_period r (some yk) (some mk) with
    | none => exact ih init h
    | some p => exact ih _ (nodup_insertIfAbsent h p)

theorem nodup_periodFold (rows : List Row) (yk mk : String) : (periodFold rows yk mk).Nodup :=
  nodup_foldl_insert rows yk mk [] List.nodup_nil

theorem foldl_insert_mono (rows : List Row) (yk mk : String) :
    ∀ (init : List (Int × Int)) (q : Int × Int), q ∈ init →
      q ∈ rows.foldl (fun acc row =>
        match _parse_row_period row (some yk) (some mk) with
        | some p => insertIfAbsent acc p
        | none => acc) init := by
  induction rows with
  | nil => intro init q h; exact h
  | cons r rs ih =>
    intro init q h
    simp only [List.foldl_cons]
    cases _parse_row_period r (some yk) (some mk) with
    | none => exact ih init q h
    | some p => exact ih _ q (mem_insertIfAbsent.mpr (Or.inl h))

theorem mem_foldl_insert {yk mk : String} {row : Row} {p : Int × Int} :
    ∀ {rows : List Row}, row ∈ rows →
      _parse_row_period row (some yk) (some mk) = some p →
      ∀ init : List (Int × Int),
        p ∈ rows.foldl (fun acc row =>
          match _parse_row_period row (some yk) (some mk) with
          | some q => insertIfAbsent acc q
          | none => acc) init := by
  intro rows
  induction rows with
  | nil => intro h; cases h
  | cons r rs ih =>
    intro hrow hp init
    simp only [List.foldl_cons]
    rcases List.mem_cons.mp hrow with rfl | hmem
    · rw [hp]
      exact foldl_insert_mono rs yk mk _ p (mem_insertIfAbsent.mpr (Or.inr rfl))
    · cases _parse_row_period r (some yk) (some mk) with
      | none => exact ih hmem hp init
      | some q => exact ih hmem hp _

theorem mem_periodFold {yk mk : String} {row : Row} {p : Int × Int} {rows : List Row}
    (hrow : row ∈ rows) (hp : _parse_row_period row (some yk) (some mk) = some p) :
    p ∈ periodFold rows yk mk :=
  mem_foldl_insert hrow hp []

theorem mem_sortPairs {l : List (Int × Int)} {p : Int × Int} : p ∈ sortPairs l ↔ p ∈ l := by
  unfold sortPairs
  exact List.mem_insertionSort pairLe

theorem sorted_sortPairs (l : List (Int × Int)) : List.Sorted pairLe (sortPairs l) :=
  List.sorted_insertionSort pairLe l

theorem nodup_sortPairs {l : List (Int × Int)} (h : l.Nodup) : (sortPairs l).Nodup :=
  ((List.perm_insertionSort pairLe l).nodup_iff).mpr h

/-- C6 counterexample: the filename extractor returns matches in scan
order, so a filename whose later match is an earlier period yields an
unsorted list, contradicting the claim that every extraction is sorted
ascending with duplicates removed. -/
theorem extract_filename_unsorted_cex :
    _extract_periods_from_filename "a2024-05b2023-04.csv" = [(2024, 5), (2023, 4)] ∧
      ¬ List.Sorted pairLe [((2024 : Int), (5 : Int)), (2023, 4)] := by
  constructor
  · decide
  · intro h
    have h1 := (List.sorted_cons.mp h).1 (2023, 4) (List.mem_singleton.mpr rfl)
    unfold pairLe at h1
    omega

/-- C6 (amended): the row-based extractor always returns its periods sorted
ascending with duplicates removed; the filename fallback instead returns
the in-range matches in order of occurrence in the name, which can be
unsorted (and can repeat). -/
theorem extract_periods_sorted_amended (rows : List Row) (mapping : StdCols) :
    List.Sorted pairLe (_extract_periods_from_rows rows mapping) ∧
      (_extract_periods_from_rows rows mapping).Nodup ∧
      _extract_periods_from_filename "a2024-05b2023-04.csv" = [(2024, 5), (2023, 4)] := by
  refine ⟨?_, ?_, by decide⟩ <;>
  · unfold _extract_periods_from_rows
    match mapping.year, mapping.month with
    | some yc, some mc =>
      dsimp only
      split
      · simp
      · first
        | exact sorted_sortPairs _
        | exact nodup_sortPairs (nodup_periodFold rows yc mc)
    | some yc, none => simp
    | none, some mc => simp
    | none, none => simp

/-! ## C10: year range behaviour of the extractors -/

theorem matchPeriodAt_year_bounds :
    ∀ {l : List Char} {y m : Int} {rest : List Char},
      matchPeriodAt l = some (y, m, rest) → 2000 ≤ y ∧ y ≤ 2099 := by
  intro l y m rest h
  rw [matchPeriodAt.eq_def] at h
  split at h
  · rename_i d1 d2 tl
    split at h
    · rename_i hd
      simp only [isDig, Bool.and_eq_true, decide_eq_true_eq] at hd
      obtain ⟨⟨h1a, h1b⟩, h2a, h2b⟩ := hd
      split at h
      · rename_i mcs rest2 hm
        simp only [Option.some.injEq, Prod.mk.injEq] at h
        obtain ⟨hy, hm2, hr⟩ := h
        subst hy
        exact ⟨by omega, by omega⟩
      · cases h
    · cases h
  · cases h

theorem scanPeriods_year_bounds :
    ∀ (fuel : Nat) (l : List Char) (p : Int × Int),
      p ∈ scanPeriods fuel l → 2000 ≤ p.1 ∧ p.1 ≤ 2099 := by
  intro fuel
  induction fuel with
  | zero => intro l p h; simp [scanPeriods] at h
  | succ n ih =>
    intro l p h
    match l with
    | [] => simp [scanPeriods] at h
    | c :: rest =>
      cases hm : matchPeriodAt (c :: rest) with
      | none =>
        rw [scanPeriods, hm] at h
        exact ih _ _ h
      | some t =>
        obtain ⟨y, m, rest2⟩ := t
        rw [scanPeriods, hm] at h
        rcases List.mem_cons.mp h with h1 | h1
        · subst h1; exact matchPeriodAt_year_bounds hm
        · exact ih _ _ h1

theorem extract_filename_year_bounds {path : String} {p : Int × Int}
    (h : p ∈ _extract_periods_from_filename path) : 2000 ≤ p.1 ∧ p.1 ≤ 2099 := by
  unfold _extract_periods_from_filename at h
  exact scanPeriods_year_bounds _ _ _ (List.mem_of_mem_filter h)

/-- C10: the row-based period extraction (both the per-row parse and the
batch extractor) places no range restriction on the year — any integer
year, zero and negative ones included, paired with a month in 1..12,
contributes — while the filename fallback only ever produces years in
2000..2099 (four digits beginning with "20"). -/
theorem row_periods_year_unrestricted :
    (∀ (row : Row) (yk mk : String) (y m : Int),
        yk.isEmpty = false → mk.isEmpty = false →
        parseIntPy (pyStrip (rowGet row yk)) = some y →
        parseIntPy (pyStrip (rowGet row mk)) = some m →
        1 ≤ m → m ≤ 12 →
        _parse_row_period row (some yk) (some mk) = some (y, m)) ∧
      (∀ (rows : List Row) (mapping : StdCols) (yc mc : String) (row : Row) (p : Int × Int),
        mapping.year = some yc → mapping.month = some mc →
        yc.isEmpty = false → mc.isEmpty = false →
        row ∈ rows →
        _parse_row_period row (some yc) (some mc) = some p →
        p ∈ _extract_periods_from_rows rows mapping) ∧
      (∀ (path : String) (p : Int × Int),
        p ∈ _extract_periods_from_filename path → 2000 ≤ p.1 ∧ p.1 ≤ 2099) := by
  refine ⟨?_, ?_, fun path p h => extract_filename_year_bounds h⟩
  · intro row yk mk y m hyk hmk hy hm h1 h2
    simp [_parse_row_period, hyk, hmk, hy, hm, h1, h2]
  · intro rows mapping yc mc row p hyc hmc hycne hmcne hrow hp
    have hgoal : _extract_periods_from_rows rows mapping = sortPairs (periodFold rows yc mc) := by
      simp [_extract_periods_from_rows, hyc, hmc, hycne, hmcne]
    rw [hgoal]
    exact mem_sortPairs.mpr (mem_periodFold hrow hp)

/-- C10 witness: a negative year is accepted by the row parser and
collected by the batch extractor. -/
theorem row_periods_year_unrestricted_witness :
    _parse_row_period [("y", "-3"), ("m", "5")] (some "y") (some "m") = some (-3, 5) ∧
      ((-3 : Int), (5 : Int)) ∈ _extract_periods_from_rows [[("y", "-3"), ("m", "5")]]
        (StdCols.mk (some "m") (some "y") none none none none none none none) :=
  ⟨row_periods_year_unrestricted.1 [("y", "-3"), ("m", "5")] "y" "m" (-3) 5
      (by decide) (by decide) (by decide) (by decide) (by decide) (by decide),
    row_periods_year_unrestricted.2.1 [[("y", "-3"), ("m", "5")]]
      (StdCols.mk (some "m") (some "y") none none none none none none none)
      "y" "m" [("y", "-3"), ("m", "5")] ((-3 : Int), (5 : Int))
      rfl rfl (by decide) (by decide) (by decide) (by decide)⟩

/-! ## services/database.py `ensure_columns`, acting on the schema state -/

/-- One `ALTER TABLE exams ADD COLUMN` attempt: SQLite rejects a duplicate
column name (and the code ignores the failure), otherwise the column is
appended to the schema. -/
def addColumn (schema : List String) (c : String) : List String :=
  if c ∈ schema then schema else schema ++ [c]

/-- services/database.py `ensure_columns`: compute the desired columns that
are absent and not the reserved identity column "id", add each, and return
the resulting column list (the code re-reads it from the table). -/
def ensure_columns (schema : List String) (columns : List String) : List String :=
  let to_add := columns.filter (fun c => decide (c ∉ schema) && decide (c ≠ "id"))
  to_add.foldl addColumn schema

theorem mem_addColumn_iff {schema : List String} {c a : String} :
    a ∈ addColumn schema c ↔ a ∈ schema ∨ a = c := by
  unfold addColumn
  split
  · rename_i h
    constructor
    · exact Or.inl
    · rintro (h1 | rfl)
      · exact h1
      · exact h
  · simp [List.mem_append]

theorem foldl_addColumn_mem_init :
    ∀ (l : List String) {init : List String} {a : String},
      a ∈ init → a ∈ l.foldl addColumn init := by
  intro l
  induction l with
  | nil => intro init a h; exact h
  | cons c cs ih =>
    intro init a h
    exact ih (mem_addColumn_iff.mpr (Or.inl h))

theorem foldl_addColumn_mem_list :
    ∀ (l : List String) {init : List String} {a : String},
      a ∈ l → a ∈ l.foldl addColumn init := by
  intro l
  induction l with
  | nil => intro init a h; cases h
  | cons c cs ih =>
    intro init a h
    rcases List.mem_cons.mp h with rfl | h1
    · exact foldl_addColumn_mem_init cs (mem_addColumn_iff.mpr (Or.inr rfl))
    · exact ih h1

theorem mem_foldl_addColumn :
    ∀ (l : List String) {init : List String} {a : String},
      a ∈ l.foldl addColumn init → a ∈ init ∨ a ∈ l := by
  intro l
  induction l with
  | nil => intro init a h; exact Or.inl h
  | cons c cs ih =>
    intro init a h
    rcases ih h with h1 | h1
    · rcases mem_addColumn_iff.mp h1 with h2 | rfl
      · exact Or.inl h2
      · exact Or.inr (List.mem_cons_self _ _)
    · exact Or.inr (List.mem_cons_of_mem _ h1)

theorem ensure_columns_mem_init {existing columns : List String} {c : String}
    (h : c ∈ existing) : c ∈ ensure_columns existing columns :=
  foldl_addColumn_mem_init _ h

theorem ensure_columns_mem_desired {existing columns : List String} {c : String}
    (hc : c ∈ columns) (hne : c ≠ "id") : c ∈ ensure_columns existing columns := by
  by_cases hmem : c ∈ existing
  · exact ensure_columns_mem_init hmem
  · refine foldl_addColumn_mem_list _ ?_
    simp only [List.mem_filter, Bool.and_eq_true, decide_eq_true_eq]
    exact ⟨hc, hmem, hne⟩

theorem ensure_columns_idem (existing columns : List String) :
    ensure_columns (ensure_columns existing columns) columns =
      ensure_columns existing columns := by
  have hfil : columns.filter
      (fun c => decide (c ∉ ensure_columns existing columns) && decide (c ≠ "id")) = [] := by
    rw [List.filter_eq_nil_iff]
    intro c hc
    simp only [Bool.and_eq_true, decide_eq_true_eq, not_and, not_not]
    intro hnot
    by_contra hne
    exact hnot (ensure_columns_mem_desired hc hne)
  show (columns.filter
      (fun c => decide (c ∉ ensure_columns existing columns) && decide (c ≠ "id"))).foldl
      addColumn (ensure_columns existing columns) = ensure_columns existing columns
  rw [hfil]
  rfl

/-- C8 counterexample: with an existing column set that lacks the identity
column and a desired list consisting of "id", the result is not a superset
of the desired list — "id" is reserved and never added. -/
theorem ensure_columns_id_cex :
    ensure_columns [] ["id"] = [] ∧ ("id" : String) ∈ (["id"] : List String) ∧
      ("id" : String) ∉ ensure_columns [] ["id"] := by
  refine ⟨by decide, by decide, by decide⟩

/-- C8 (amended): the result of `ensure_columns` contains every existing
column and every desired column other than the reserved identity column
"id"; the call is idempotent (a second call with the same input returns
the same column set); and "id" is never added nor removed — it is in the
result exactly when it was already in the existing set. -/
theorem ensure_columns_amended (existing columns : List String) :
    (∀ c ∈ existing, c ∈ ensure_columns existing columns) ∧
      (∀ c ∈ columns, c ≠ "id" → c ∈ ensure_columns existing columns) ∧
      ensure_columns (ensure_columns existing columns) columns = ensure_columns existing columns ∧
      (("id" : String) ∈ ensure_columns existing columns ↔ ("id" : String) ∈ existing) := by
  refine ⟨fun c hc => ensure_columns_mem_init hc,
    fun c hc hne => ensure_columns_mem_desired hc hne,
    ensure_columns_idem existing columns, ?_⟩
  · constructor
    · intro h
      rcases mem_foldl_addColumn _ h with h1 | h1
      · exact h1
      · exfalso
        simp only [List.mem_filter, Bool.and_eq_true, decide_eq_true_eq] at h1
        exact h1.2.2 rfl
    · exact fun h => ensure_columns_mem_init h

/-- C8 amended witness at a concrete input. -/
theorem ensure_columns_amended_witness :
    ("a" : String) ∈ (["a"] : List String) ∧ ("a" : String) ≠ "id" ∧
      ("a" : String) ∈ ensure_columns ["id"] ["a"] :=
  ⟨by decide, by decide, (ensure_columns_amended ["id"] ["a"]).2.1 "a" (by decide) (by decide)⟩

/-! ## Database state, oracle of store outcomes, and the row inserter -/

/-- The persisted state: the dynamically-grown column list of the exams
table, its rows, and the imported-periods registry. -/
structure DB where
  schema : List String
  exams : List Row
  periods : List (Int × Int)
deriving Repr, DecidableEq

/-- Outcomes of the underlying store during one `_insert_rows` call:
whether `db.transaction()` succeeds, whether `db.commit()` succeeds, and
whether the i-th row's `query.exec()` succeeds. -/
structure Oracle where
  useTx : Bool
  commitOk : Bool
  execOk : Nat → Bool

/-- The oracle of a fully healthy store. -/
def perfectOracle : Oracle := ⟨true, true, fun _ => true⟩

/-- The record stored for a row: its keys mapped through the
header-to-sanitized-column dict (Python dict comprehension semantics). -/
def applyMapping (mapping : List (String × String)) (row : Row) : Row :=
  dictOfPairs (row.map (fun kv => ((dictGet mapping kv.1).getD kv.1, kv.2)))

/-- services/csv_importer.py `_insert_rows`: an empty batch returns zero;
otherwise every row whose exec succeeds is inserted and counted, inside a
transaction when one could be started; if the transaction was started but
cannot commit, it is rolled back (the exams table reverts), yet the
returned count is still the number of successful per-row execs. -/
def _insert_rows (db : DB) (o : Oracle) (rows : List Row) (mapping : List (String × String)) :
    DB × Nat :=
  if rows.isEmpty then (db, 0)
  else
    let succeeded := (rows.enum.filter (fun iv => o.execOk iv.1)).map
      (fun iv => applyMapping mapping iv.2)
    let count := (rows.enum.filter (fun iv => o.execOk iv.1)).length
    if o.useTx && !o.commitOk then (db, count)
    else ({ db with exams := db.exams ++ succeeded }, count)

/-- C2 counterexample: one row, its exec succeeds, the transaction cannot
commit: the batch is rolled back (the exams table is unchanged) but the
inserter reports 1, not the zero net inserted rows the claim states. -/
theorem insert_rows_rollback_count_cex :
    (_insert_rows ⟨["id"], [], []⟩ ⟨true, false, fun _ => true⟩
        [[("a", "1")]] [("a", "a")]).2 = 1 ∧
      (_insert_rows ⟨["id"], [], []⟩ ⟨true, false, fun _ => true⟩
        [[("a", "1")]] [("a", "a")]).1.exams = ([] : List Row) := by
  refine ⟨by decide, by decide⟩

/-- C2 (amended): when the transaction was started but cannot commit, the
whole batch is rolled back — the stored state is exactly the initial one,
so no partial batch persists — but the inserter returns the count of rows
whose individual exec succeeded, which is not in general zero. -/
theorem insert_rows_rollback_amended (db : DB) (o : Oracle) (rows : List Row)
    (mapping : List (String × String)) (htx : o.useTx = true) (hc : o.commitOk = false) :
    (_insert_rows db o rows mapping).1 = db ∧
      (_insert_rows db o rows mapping).2 =
        (rows.enum.filter (fun iv => o.execOk iv.1)).length := by
  unfold _insert_rows
  split
  · rename_i hempty
    simp only [List.isEmpty_iff] at hempty
    subst hempty
    simp
  · rw [htx, hc]
    simp

/-- C2 amended witness at a concrete input. -/
theorem insert_rows_rollback_amended_witness :
    (⟨true, false, fun _ => true⟩ : Oracle).useTx = true ∧
      (⟨true, false, fun _ => true⟩ : Oracle).commitOk = false ∧
      (_insert_rows ⟨["id"], [], []⟩ ⟨true, false, fun _ => true⟩
          [[("b", "2")]] [("b", "b")]).1 = ⟨["id"], [], []⟩ :=
  ⟨rfl, rfl,
    (insert_rows_rollback_amended ⟨["id"], [], []⟩ ⟨true, false, fun _ => true⟩
      [[("b", "2")]] [("b", "b")] rfl rfl).1⟩

/-! ## services/csv_importer.py `import_csv` (modelled as `importCsv`) -/

/-- The parsed content handed to the importer once decoding succeeded: the
source path, the raw header fields, and the data rows keyed by the raw
header fields (Python csv.DictReader). -/
structure ImportInput where
  path : String
  fieldnames : List String
  rows : List Row

/-- `original_headers`: the raw fields stripped. -/
def strippedHeaders (inp : ImportInput) : List String := inp.fieldnames.map pyStrip

/-- `sanitized_headers`. -/
def sanitizedHeaders (inp : ImportInput) : List String :=
  (strippedHeaders inp).map sanitize_column

/-- `mapping`: stripped original header to sanitized column. -/
def headerMapping (inp : ImportInput) : List (String × String) :=
  dictOfPairs ((strippedHeaders inp).zip (sanitizedHeaders inp))

/-- `standard_mapping` recomputed from the sanitized headers. -/
def stdOf (inp : ImportInput) : StdCols := find_standard_columns (sanitizedHeaders inp)

/-- `reverse_mapping`: sanitized column back to stripped original header. -/
def reverseMapping (inp : ImportInput) : List (String × String) :=
  dictOfPairs ((headerMapping inp).map (fun kv => (kv.2, kv.1)))

/-- Python truthiness of an optional column name: present and non-empty. -/
def optTruthy : Option String → Bool
  | some s => !s.isEmpty
  | none => false

/-- The `if year_col and month_col` branch condition of `import_csv`. -/
def bothResolveB (sc : StdCols) : Bool := optTruthy sc.year && optTruthy sc.month

/-- `year_col` as used inside the per-row branch. -/
def yearColOf (inp : ImportInput) : String := ((stdOf inp).year).getD ""

/-- `month_col` as used inside the per-row branch. -/
def monthColOf (inp : ImportInput) : String := ((stdOf inp).month).getD ""

/-- `year_key = reverse_mapping.get(year_col, year_col)`. -/
def yearKeyOf (inp : ImportInput) : String :=
  (dictGet (reverseMapping inp) (yearColOf inp)).getD (yearColOf inp)

/-- `month_key = reverse_mapping.get(month_col, month_col)`. -/
def monthKeyOf (inp : ImportInput) : String :=
  (dictGet (reverseMapping inp) (monthColOf inp)).getD (monthColOf inp)

/-- The period `_parse_row_period` computes for one raw row during the
per-row dedup pass. -/
def rowPeriod (inp : ImportInput) (row : Row) : Option (Int × Int) :=
  _parse_row_period row (some (yearKeyOf inp)) (some (monthKeyOf inp))

/-- `rows_sanitized`: each row re-keyed through the header mapping. -/
def rowsSanitized (inp : ImportInput) : List Row :=
  inp.rows.map (applyMapping (headerMapping inp))

/-- The periods reported for the file: row extraction first, filename
fallback when it found nothing. -/
def computedPeriods (inp : ImportInput) : List (Int × Int) :=
  let p := _extract_periods_from_rows (rowsSanitized inp) (stdOf inp)
  if p.isEmpty then _extract_periods_from_filename inp.path else p

/-- Whether a row survives the per-row dedup: kept unless its period parsed
and is already registered. -/
def keepRow (imported : List (Int × Int)) (inp : ImportInput) (row : Row) : Bool :=
  match rowPeriod inp row with
  | some p => !(decide (p ∈ imported))
  | none => true

/-- `new_rows` of the per-row branch. -/
def newRowsOf (imported : List (Int × Int)) (inp : ImportInput) : List Row :=
  inp.rows.filter (keepRow imported inp)

/-- `new_periods` of the per-row branch: the parsed periods of the kept
rows, collected as a set. -/
def newPeriodsOf (imported : List (Int × Int)) (inp : ImportInput) : List (Int × Int) :=
  periodFold (newRowsOf imported inp) (yearKeyOf inp) (monthKeyOf inp)

/-- services/database.py `register_imported_periods`: INSERT OR IGNORE of
each pair into the registry. -/
def register_imported_periods (dbPeriods ps : List (Int × Int)) : List (Int × Int) :=
  ps.foldl insertIfAbsent dbPeriods

/-- services/csv_importer.py `import_csv`, after a successful decode, as a
function of the store state and the store-outcome oracle. Returns the
inserted count, the reported period list, and the new store state.
A file without a header row returns (0, []). Otherwise the schema is
evolved, and either the per-row dedup branch (year and month columns
resolvable) or the whole-file dedup branch runs. -/
def importCsv (db : DB) (o : Oracle) (inp : ImportInput) : Nat × List (Int × Int) × DB :=
  if inp.fieldnames.isEmpty then (0, [], db)
  else
    let db1 : DB := { db with schema := ensure_columns db.schema (sanitizedHeaders inp) }
    let periods := computedPeriods inp
    if bothResolveB (stdOf inp) then
      let nr := newRowsOf db1.periods inp
      if nr.isEmpty then (0, periods, db1)
      else
        let np := newPeriodsOf db1.periods inp
        let r := _insert_rows db1 o nr (headerMapping inp)
        (r.2, periods,
          if np.isEmpty then r.1
          else { r.1 with periods := register_imported_periods r.1.periods (sortPairs np) })
    else
      if !periods.isEmpty && periods.any (fun p => decide (p ∈ db1.periods)) then
        (0, periods, db1)
      else
        let r := _insert_rows db1 o inp.rows (headerMapping inp)
        (r.2, periods,
          if periods.isEmpty then r.1
          else { r.1 with periods := register_imported_periods r.1.periods periods })

/-! ## Supporting lemmas for the importer -/

theorem mem_register_left : ∀ (ps : List (Int × Int)) {st : List (Int × Int)} {q : Int × Int},
    q ∈ st → q ∈ register_imported_periods st ps := by
  intro ps
  induction ps with
  | nil => intro st q h; exact h
  | cons p pr ih =>
    intro st q h
    exact ih (mem_insertIfAbsent.mpr (Or.inl h))

theorem mem_register_right : ∀ (ps : List (Int × Int)) {st : List (Int × Int)} {q : Int × Int},
    q ∈ ps → q ∈ register_imported_periods st ps := by
  intro ps
  induction ps with
  | nil => intro st q h; cases h
  | cons p pr ih =>
    intro st q h
    rcases List.mem_cons.mp h with rfl | h1
    · exact mem_register_left pr (mem_insertIfAbsent.mpr (Or.inr rfl))
    · exact ih h1

theorem perfect_filter (rows : List Row) :
    rows.enum.filter (fun iv => perfectOracle.execOk iv.1) = rows.enum := by
  simp [perfectOracle]

theorem enumFrom_map_snd_comp (f : Row → Row) :
    ∀ (n : Nat) (rows : List Row),
      (List.enumFrom n rows).map (fun iv => f iv.2) = rows.map f := by
  intro n rows
  induction rows generalizing n with
  | nil => rfl
  | cons r rs ih => simp [List.enumFrom, ih]

theorem insert_rows_perfect_count (db : DB) (rows : List Row)
    (mapping : List (String × String)) :
    (_insert_rows db perfectOracle rows mapping).2 = rows.length := by
  unfold _insert_rows
  split
  · rename_i h
    rw [List.isEmpty_iff] at h
    subst h
    rfl
  · simp only [perfect_filter, perfectOracle]
    simp [List.enum_length]

theorem insert_rows_perfect_state (db : DB) (rows : List Row)
    (mapping : List (String × String)) :
    (_insert_rows db perfectOracle rows mapping).1 =
      { db with exams := db.exams ++ rows.map (applyMapping mapping) } := by
  unfold _insert_rows
  split
  · rename_i h
    rw [List.isEmpty_iff] at h
    subst h
    simp
  · simp only [perfect_filter, perfectOracle, Bool.not_true, Bool.and_false,
      Bool.false_eq_true, if_neg]
    have hmap : rows.enum.map (fun iv => applyMapping mapping iv.2) =
        rows.map (applyMapping mapping) := by
      unfold List.enum
      exact enumFrom_map_snd_comp (applyMapping mapping) 0 rows
    simp [hmap]

/-! ## C1: whole-file dedup fallback -/

/-- The store and file of the C1 counterexample: registry holds only
(2024, 1); the file has no year/month columns and a filename carrying the
periods (2024, 1) and (2024, 2). -/
def c1Db : DB := ⟨["id", "provincia"], [], [(2024, 1)]⟩

/-- The C1 counterexample input file. -/
def c1Input : ImportInput :=
  ⟨"exams_2024-01_2024-02.csv", ["Provincia"],
    [[("Provincia", "Madrid")], [("Provincia", "Sevilla")]]⟩

/-- C1 counterexample: in the whole-file fallback, one extracted period —
(2024, 2) — is absent from the registry, so by the claim all 2 rows should
be inserted; the code skips the whole file (inserts zero rows) because at
least one extracted period, (2024, 1), is already registered. -/
theorem import_whole_file_dedup_cex :
    bothResolveB (stdOf c1Input) = false ∧
      (importCsv c1Db perfectOracle c1Input).2.1 = [(2024, 1), (2024, 2)] ∧
      ((2024 : Int), (2 : Int)) ∉ c1Db.periods ∧
      c1Input.rows.length = 2 ∧
      (importCsv c1Db perfectOracle c1Input).1 = 0 ∧
      (importCsv c1Db perfectOracle c1Input).2.2.exams = c1Db.exams := by
  refine ⟨by decide, by decide, by decide, by decide, by decide, by decide⟩

/-- C1 (amended): in the whole-file dedup fallback (year or month column
not resolvable), the file is skipped — zero rows inserted, store rows
unchanged — exactly when the extracted period list is non-empty and AT
LEAST ONE extracted period already exists in the registry; otherwise every
row of the file is inserted (with a healthy store). -/
theorem import_whole_file_dedup_amended (db : DB) (inp : ImportInput)
    (hfields : inp.fieldnames.isEmpty = false)
    (hbranch : bothResolveB (stdOf inp) = false) :
    ((computedPeriods inp ≠ [] ∧ ∃ p ∈ computedPeriods inp, p ∈ db.periods) →
        (importCsv db perfectOracle inp).1 = 0 ∧
          (importCsv db perfectOracle inp).2.2.exams = db.exams) ∧
      ((computedPeriods inp = [] ∨ ∀ p ∈ computedPeriods inp, p ∉ db.periods) →
        (importCsv db perfectOracle inp).1 = inp.rows.length) := by
  constructor
  · rintro ⟨hne, p, hp, hmem⟩
    have hcond : (!(computedPeriods inp).isEmpty &&
        (computedPeriods inp).any (fun q => decide (q ∈ db.periods))) = true := by
      rw [Bool.and_eq_true]
      constructor
      · simpa [List.isEmpty_iff] using hne
      · exact List.any_eq_true.mpr ⟨p, hp, by simpa using hmem⟩
    constructor <;> simp [importCsv, hfields, hbranch, hcond]
  · intro hno
    have hany : (computedPeriods inp).any (fun q => decide (q ∈ db.periods)) = false := by
      rcases hno with h | h
      · simp [h]
      · rw [List.any_eq_false]
        intro q hq
        simpa using h q hq
    simp [importCsv, hfields, hbranch, hany, insert_rows_perfect_count]

/-- C1 amended witness: skipping side at the concrete counterexample
store/file, and inserting side with an empty registry. -/
theorem import_whole_file_dedup_amended_witness :
    ((importCsv c1Db perfectOracle c1Input).1 = 0 ∧
        (importCsv c1Db perfectOracle c1Input).2.2.exams = c1Db.exams) ∧
      (importCsv (DB.mk ["id", "provincia"] [] []) perfectOracle c1Input).1 =
        c1Input.rows.length :=
  ⟨(import_whole_file_dedup_amended c1Db c1Input (by decide) (by decide)).1
      ⟨by decide, (2024, 1), by decide, by decide⟩,
    (import_whole_file_dedup_amended (DB.mk ["id", "provincia"] [] []) c1Input
        (by decide) (by decide)).2 (Or.inr (by decide))⟩

/-! ## C3: importing the same file twice -/

theorem keepRow_eq_false_iff {imported : List (Int × Int)} {inp : ImportInput} {row : Row} :
    keepRow imported inp row = false ↔
      ∃ p, rowPeriod inp row = some p ∧ p ∈ imported := by
  unfold keepRow
  cases h : rowPeriod inp row with
  | none => simp
  | some p => simp

theorem importCsv_rowbranch_skip (db : DB) (o : Oracle) (inp : ImportInput)
    (hfields : inp.fieldnames.isEmpty = false)
    (hbranch : bothResolveB (stdOf inp) = true)
    (hnr : (newRowsOf db.periods inp).isEmpty = true) :
    importCsv db o inp =
      (0, computedPeriods inp,
        { db with schema := ensure_columns db.schema (sanitizedHeaders inp) }) := by
  simp [importCsv, hfields, hbranch, hnr]

theorem importCsv_rowbranch_insert (db : DB) (inp : ImportInput)
    (hfields : inp.fieldnames.isEmpty = false)
    (hbranch : bothResolveB (stdOf inp) = true)
    (hnr : (newRowsOf db.periods inp).isEmpty = false) :
    importCsv db perfectOracle inp =
      ((newRowsOf db.periods inp).length, computedPeriods inp,
        ⟨ensure_columns db.schema (sanitizedHeaders inp),
          db.exams ++ (newRowsOf db.periods inp).map (applyMapping (headerMapping inp)),
          if (newPeriodsOf db.periods inp).isEmpty then db.periods
          else register_imported_periods db.periods (sortPairs (newPeriodsOf db.periods inp))⟩) := by
  have hins := insert_rows_perfect_state
    { db with schema := ensure_columns db.schema (sanitizedHeaders inp) }
    (newRowsOf db.periods inp) (headerMapping inp)
  have hcnt := insert_rows_perfect_count
    { db with schema := ensure_columns db.schema (sanitizedHeaders inp) }
    (newRowsOf db.periods inp) (headerMapping inp)
  simp only [importCsv, hfields, Bool.false_eq_true, if_false, hbranch, if_true, hnr,
    hins, hcnt]
  split <;> rfl

theorem importCsv_periods_eq (db : DB) (o : Oracle) (inp : ImportInput)
    (hfields : inp.fieldnames.isEmpty = false) :
    (importCsv db o inp).2.1 = computedPeriods inp := by
  simp only [importCsv, hfields, Bool.false_eq_true, if_false]
  split
  · split
    · rfl
    · rfl
  · split
    · rfl
    · rfl

theorem first_import_schema (db : DB) (inp : ImportInput)
    (hfields : inp.fieldnames.isEmpty = false)
    (hbranch : bothResolveB (stdOf inp) = true) :
    (importCsv db perfectOracle inp).2.2.schema =
      ensure_columns db.schema (sanitizedHeaders inp) := by
  cases hnr : (newRowsOf db.periods inp).isEmpty with
  | true => rw [importCsv_rowbranch_skip db perfectOracle inp hfields hbranch hnr]
  | false =>
    rw [importCsv_rowbranch_insert db inp hfields hbranch hnr]

theorem first_import_registers (db : DB) (inp : ImportInput)
    (hfields : inp.fieldnames.isEmpty = false)
    (hbranch : bothResolveB (stdOf inp) = true) :
    ∀ row ∈ inp.rows, ∀ p, rowPeriod inp row = some p →
      p ∈ (importCsv db perfectOracle inp).2.2.periods := by
  intro row hrow p hp
  cases hnr : (newRowsOf db.periods inp).isEmpty with
  | true =>
    rw [importCsv_rowbranch_skip db perfectOracle inp hfields hbranch hnr]
    have hall : ∀ r ∈ inp.rows, ¬ keepRow db.periods inp r = true := by
      have h0 : newRowsOf db.periods inp = [] := List.isEmpty_iff.mp hnr
      unfold newRowsOf at h0
      exact List.filter_eq_nil_iff.mp h0
    have hfalse : keepRow db.periods inp row = false :=
      Bool.eq_false_iff.mpr (hall row hrow)
    obtain ⟨q, hq, hqmem⟩ := keepRow_eq_false_iff.mp hfalse
    rw [hp] at hq
    obtain rfl : p = q := by injection hq
    exact hqmem
  | false =>
    rw [importCsv_rowbranch_insert db inp hfields hbranch hnr]
    show p ∈ (if (newPeriodsOf db.periods inp).isEmpty then db.periods
      else register_imported_periods db.periods (sortPairs (newPeriodsOf db.periods inp)))
    cases hkeep : keepRow db.periods inp row with
    | false =>
      obtain ⟨q, hq, hqmem⟩ := keepRow_eq_false_iff.mp hkeep
      rw [hp] at hq
      obtain rfl : p = q := by injection hq
      split
      · exact hqmem
      · exact mem_register_left _ hqmem
    | true =>
      have hrownr : row ∈ newRowsOf db.periods inp := by
        unfold newRowsOf
        exact List.mem_filter.mpr ⟨hrow, hkeep⟩
      have hnp : p ∈ newPeriodsOf db.periods inp := by
        unfold newPeriodsOf
        exact mem_periodFold hrownr hp
      have hnpne : (newPeriodsOf db.periods inp).isEmpty = false := by
        rw [List.isEmpty_eq_false_iff_exists_mem]
        exact ⟨p, hnp⟩
      rw [if_neg (by rw [hnpne]; exact Bool.false_ne_true)]
      exact mem_register_right _ (mem_sortPairs.mpr hnp)

/-- C3: importing the same parsed file twice with a healthy store, when the
year/month columns resolve and every row carries a parsable (year, month)
period, yields 0 inserted rows and the same period list on the second
call, and leaves the whole store state — in particular the exam record
count — unchanged from the state after the first import. -/
theorem import_twice_dedup (db : DB) (inp : ImportInput)
    (hfields : inp.fieldnames.isEmpty = false)
    (hbranch : bothResolveB (stdOf inp) = true)
    (hparse : ∀ row ∈ inp.rows, (rowPeriod inp row).isSome = true) :
    (importCsv (importCsv db perfectOracle inp).2.2 perfectOracle inp).1 = 0 ∧
      (importCsv (importCsv db perfectOracle inp).2.2 perfectOracle inp).2.1 =
        (importCsv db perfectOracle inp).2.1 ∧
      (importCsv (importCsv db perfectOracle inp).2.2 perfectOracle inp).2.2 =
        (importCsv db perfectOracle inp).2.2 := by
  have hnr2 : (newRowsOf (importCsv db perfectOracle inp).2.2.periods inp).isEmpty = true := by
    rw [List.isEmpty_iff]
    unfold newRowsOf
    rw [List.filter_eq_nil_iff]
    intro row hrow htrue
    obtain ⟨p, hp⟩ := Option.isSome_iff_exists.mp (hparse row hrow)
    have hreg := first_import_registers db inp hfields hbranch row hrow p hp
    have hfalse := keepRow_eq_false_iff.mpr ⟨p, hp, hreg⟩
    rw [htrue] at hfalse
    cases hfalse
  have hsecond := importCsv_rowbranch_skip (importCsv db perfectOracle inp).2.2 perfectOracle
    inp hfields hbranch hnr2
  have hschema2 : ensure_columns (importCsv db perfectOracle inp).2.2.schema
      (sanitizedHeaders inp) = (importCsv db perfectOracle inp).2.2.schema := by
    rw [first_import_schema db inp hfields hbranch]
    exact ensure_columns_idem db.schema (sanitizedHeaders inp)
  refine ⟨?_, ?_, ?_⟩
  · rw [hsecond]
  · rw [hsecond]
    show computedPeriods inp = _
    exact (importCsv_periods_eq db perfectOracle inp hfields).symm
  · rw [hsecond]
    show ({ (importCsv db perfectOracle inp).2.2 with
        schema := ensure_columns (importCsv db perfectOracle inp).2.2.schema
          (sanitizedHeaders inp) } : DB) = (importCsv db perfectOracle inp).2.2
    rw [hschema2]

/-- The 3-row example file of the spec, as parsed input. -/
def c3Input : ImportInput :=
  ⟨"pruebas.csv", ["Año", "Mes", "Provincia", "Num_Aptos", "Num_No_Aptos"],
    [[("Año", "2024"), ("Mes", "3"), ("Provincia", "Madrid"),
        ("Num_Aptos", "10"), ("Num_No_Aptos", "2")],
     [("Año", "2024"), ("Mes", "3"), ("Provincia", "Madrid"),
        ("Num_Aptos", "5"), ("Num_No_Aptos", "1")],
     [("Año", "2024"), ("Mes", "4"), ("Provincia", "Madrid"),
        ("Num_Aptos", "7"), ("Num_No_Aptos", "0")]]⟩

/-- C3 witness: re-importing the example file into the store produced by
its first import inserts nothing and leaves the store unchanged. -/
theorem import_twice_dedup_witness :
    (importCsv (importCsv ⟨["id"], [], []⟩ perfectOracle c3Input).2.2 perfectOracle c3Input).1
        = 0 ∧
      (importCsv (importCsv ⟨["id"], [], []⟩ perfectOracle c3Input).2.2 perfectOracle
          c3Input).2.2 =
        (importCsv ⟨["id"], [], []⟩ perfectOracle c3Input).2.2 :=
  ⟨(import_twice_dedup ⟨["id"], [], []⟩ c3Input (by decide) (by decide) (by decide)).1,
   (import_twice_dedup ⟨["id"], [], []⟩ c3Input (by decide) (by decide) (by decide)).2.2⟩

/-! ## ui/main_window_ui.py `MainWindow._build_query`: year/month range -/

/-- A bound positional SQL parameter of `_build_query`. -/
inductive SqlParam
  | intVal (n : Int)
  | strVal (s : String)
deriving Repr, DecidableEq

/-- The two year/month range WHERE clauses `_build_query` can emit; the
bounds travel in the positional parameter list, as in the SQL text. -/
inductive RangeClause
  | fromRange (yearCol monthCol : String)
  | toRange (yearCol monthCol : String)
deriving Repr, DecidableEq

/-- The range-filter part of `_build_query` (lines 331-348): a clause is
emitted only when the month column, the year column, the year spin value
(0 meaning unset) and the month combo text are all truthy; each clause
binds year, year, month in that order. -/
def build_range_clauses (sc : StdCols) (from_year : Int) (from_month : String)
    (to_year : Int) (to_month : String) : List RangeClause × List SqlParam :=
  let fromOk := optTruthy sc.month && optTruthy sc.year &&
    (from_year != 0) && !(from_month.isEmpty)
  let toOk := optTruthy sc.month && optTruthy sc.year &&
    (to_year != 0) && !(to_month.isEmpty)
  let yc := sc.year.getD ""
  let mc := sc.month.getD ""
  ((if fromOk then [RangeClause.fromRange yc mc] else []) ++
      (if toOk then [RangeClause.toRange yc mc] else []),
    (if fromOk then [SqlParam.intVal from_year, SqlParam.intVal from_year,
        SqlParam.strVal from_month] else []) ++
      (if toOk then [SqlParam.intVal to_year, SqlParam.intVal to_year,
        SqlParam.strVal to_month] else []))

/-- SQLite `CAST(col AS INTEGER) > ?`: the cast value has INTEGER affinity,
so a numeric text parameter is converted; a non-numeric text compares
greater than every integer in SQLite's cross-type ordering. -/
def sqliteGtParam (y : Int) (p : SqlParam) : Bool :=
  match p with
  | SqlParam.intVal k => decide (k < y)
  | SqlParam.strVal s =>
    match parseIntPy s with
    | some k => decide (k < y)
    | none => false

/-- SQLite `CAST(col AS INTEGER) < ?` (see `sqliteGtParam`). -/
def sqliteLtParam (y : Int) (p : SqlParam) : Bool :=
  match p with
  | SqlParam.intVal k => decide (y < k)
  | SqlParam.strVal s =>
    match parseIntPy s with
    | some k => decide (y < k)
    | none => true

/-- SQLite `CAST(col AS INTEGER) = ?` (see `sqliteGtParam`). -/
def sqliteEqParam (y : Int) (p : SqlParam) : Bool :=
  match p with
  | SqlParam.intVal k => decide (y = k)
  | SqlParam.strVal s =>
    match parseIntPy s with
    | some k => decide (y = k)
    | none => false

/-- SQLite `CAST(col AS INTEGER) >= ?` (see `sqliteGtParam`). -/
def sqliteGeParam (m : Int) (p : SqlParam) : Bool :=
  match p with
  | SqlParam.intVal k => decide (k ≤ m)
  | SqlParam.strVal s =>
    match parseIntPy s with
    | some k => decide (k ≤ m)
    | none => false

/-- SQLite `CAST(col AS INTEGER) <= ?` (see `sqliteGtParam`). -/
def sqliteLeParam (m : Int) (p : SqlParam) : Bool :=
  match p with
  | SqlParam.intVal k => decide (m ≤ k)
  | SqlParam.strVal s =>
    match parseIntPy s with
    | some k => decide (m ≤ k)
    | none => true

/-- Satisfaction of the emitted range clauses against a row whose year and
month columns cast to the integers y and m, consuming three positional
parameters per clause exactly as the SQL text binds them. -/
def evalRangeClauses : List RangeClause → List SqlParam → Int → Int → Bool
  | [], _, _, _ => true
  | RangeClause.fromRange _ _ :: cs, p1 :: p2 :: p3 :: ps, y, m =>
    (sqliteGtParam y p1 || (sqliteEqParam y p2 && sqliteGeParam m p3)) &&
      evalRangeClauses cs ps y m
  | RangeClause.toRange _ _ :: cs, p1 :: p2 :: p3 :: ps, y, m =>
    (sqliteLtParam y p1 || (sqliteEqParam y p2 && sqliteLeParam m p3)) &&
      evalRangeClauses cs ps y m
  | _, _, _, _ => false

/-- The standard column map of the C4 concrete check. -/
def c4Cols : StdCols :=
  StdCols.mk (some "mes") (some "año") none none none none none none none

/-- C4: the from/to year+month range produces no clause and no parameters
whenever the month or the year column does not resolve; and the emitted
comparison is lexicographically correct — a from-range of (2023, 6)
together with a to-range of (2023, 6) is satisfied exactly by rows with
year 2023 and month 6. -/
theorem range_clauses_thm :
    (∀ (sc : StdCols) (fy : Int) (fm : String) (ty : Int) (tm : String),
        sc.month = none ∨ sc.year = none →
        build_range_clauses sc fy fm ty tm = ([], [])) ∧
      (∀ y m : Int,
        evalRangeClauses (build_range_clauses c4Cols 2023 "6" 2023 "6").1
            (build_range_clauses c4Cols 2023 "6" 2023 "6").2 y m = true ↔
          y = 2023 ∧ m = 6) := by
  constructor
  · intro sc fy fm ty tm h
    rcases h with h | h <;> simp [build_range_clauses, h, optTruthy]
  · intro y m
    have heval : evalRangeClauses (build_range_clauses c4Cols 2023 "6" 2023 "6").1
        (build_range_clauses c4Cols 2023 "6" 2023 "6").2 y m =
        ((decide ((2023 : Int) < y) || (decide (y = (2023 : Int)) && decide ((6 : Int) ≤ m))) &&
          ((decide (y < (2023 : Int)) || (decide (y = (2023 : Int)) && decide (m ≤ (6 : Int)))) &&
            true)) := rfl
    rw [heval]
    simp only [Bool.and_eq_true, Bool.or_eq_true, decide_eq_true_eq, and_true]
    omega

/-- C4 witness: with no resolvable month column the range is dropped
entirely. -/
theorem range_clauses_thm_witness :
    build_range_clauses (StdCols.mk none (some "año") none none none none none none none)
      2023 "6" 2023 "6" = ([], []) :=
  range_clauses_thm.1 _ 2023 "6" 2023 "6" (Or.inl rfl)

/-! ## ui/main_window_ui.py `MainWindow._build_query`: grouped aggregates -/

/-- Python truthiness of an optional column as a 0/1-element list (the
`[c for c in [...] if c]` idiom of `_group_columns`). -/
def truthyList : Option String → List String
  | some c => if c.isEmpty then [] else [c]
  | none => []

/-- ui/main_window_ui.py `MainWindow._group_columns`. -/
def _group_columns (sc : StdCols) (label : String) : List String :=
  if label = "Year" then truthyList sc.year
  else if label = "Month and Year" then truthyList sc.year ++ truthyList sc.month
  else if label = "Province" then truthyList sc.province
  else if label = "Exam center" then truthyList sc.exam_center
  else if label = "Driving school" then truthyList sc.driving_school
  else []

/-- An aggregate metric of the grouped SELECT list: a sum of one text
column cast to integer (with its output alias), the pass+fail total, or a
plain row count aliased total_exams. -/
inductive AggMetric
  | sumCast (col : String) (label : String)
  | sumPair (aptosCol noAptosCol : String)
  | countAll
deriving Repr, DecidableEq

/-- The metrics part of `_build_query` when grouping is active (lines
311-323): sum of the pass-count column when it resolves, sum of the
fail-count column when it resolves, and a total that is the sum of both
when both resolve, else COUNT(*). -/
def build_group_metrics (sc : StdCols) : List AggMetric :=
  (if optTruthy sc.num_aptos then
      [AggMetric.sumCast (sc.num_aptos.getD "") "num_aptos"] else []) ++
    (if optTruthy sc.num_no_aptos then
      [AggMetric.sumCast (sc.num_no_aptos.getD "") "num_no_aptos"] else []) ++
    (if optTruthy sc.num_aptos && optTruthy sc.num_no_aptos then
      [AggMetric.sumPair (sc.num_aptos.getD "") (sc.num_no_aptos.getD "")]
    else [AggMetric.countAll])

/-- The SELECT list of a grouped query: the group-by columns replace the
user-checked output columns, followed by the aggregate metrics. -/
structure GroupQuery where
  groupCols : List String
  metrics : List AggMetric

/-- The grouped query `_build_query` builds for a grouping label. -/
def build_group_select (sc : StdCols) (label : String) : GroupQuery :=
  ⟨_group_columns sc label, build_group_metrics sc⟩

/-- SQLite `CAST(text AS INTEGER)`: optional leading whitespace and sign,
then the longest digit prefix; 0 when there is none. -/
def castTextInt (s : String) : Int :=
  match s.data.dropWhile pyIsSpace with
  | '+' :: rest => ((rest.takeWhile isDig).foldl (fun n c => 10 * n + (c.toNat - 48)) 0 : Nat)
  | '-' :: rest =>
    -(((rest.takeWhile isDig).foldl (fun n c => 10 * n + (c.toNat - 48)) 0 : Nat) : Int)
  | l => ((l.takeWhile isDig).foldl (fun n c => 10 * n + (c.toNat - 48)) 0 : Nat)

/-- SQL GROUP BY semantics: partition the table by the tuple of group
column values, groups ordered by first occurrence, rows kept in order. -/
def groupRows (t : List Row) (cols : List String) : List (List String × List Row) :=
  t.foldl (fun acc row =>
    let k := cols.map (rowGet row)
    if acc.any (fun g => g.1 == k) then
      acc.map (fun g => if g.1 == k then (g.1, g.2 ++ [row]) else g)
    else acc ++ [(k, [row])]) []

/-- `SUM(CAST(col AS INTEGER))` over a group. -/
def sumCastCol (rows : List Row) (c : String) : Int :=
  (rows.map (fun r => castTextInt (rowGet r c))).sum

/-- Value of one aggregate metric over a group. -/
def evalMetric (rows : List Row) : AggMetric → Int
  | AggMetric.sumCast c _ => sumCastCol rows c
  | AggMetric.sumPair a b => sumCastCol rows a + sumCastCol rows b
  | AggMetric.countAll => rows.length

/-- Execution of a grouped query over a stored table: one output row per
group, carrying the group key values then the metric values. -/
def runGroupQuery (t : List Row) (q : GroupQuery) : List (List String × List Int) :=
  (groupRows t q.groupCols).map (fun g => (g.1, q.metrics.map (evalMetric g.2)))

/-- C5: grouping the example file's stored rows by "Month and Year" selects
the year and month group columns plus the aggregate metrics, and evaluates
to the two expected groups — (2024, 3) with aptos 15, no-aptos 3, total 18
and (2024, 4) with aptos 7, no-aptos 0, total 7; in general the total
metric is the pass+fail sum exactly when both count columns resolve, and a
plain row count otherwise. -/
theorem grouped_query_thm :
    runGroupQuery (rowsSanitized c3Input) (build_group_select (stdOf c3Input) "Month and Year")
        = [(["2024", "3"], [15, 3, 18]), (["2024", "4"], [7, 0, 7])] ∧
      _group_columns (stdOf c3Input) "Month and Year" = ["año", "mes"] ∧
      (∀ sc : StdCols, optTruthy sc.num_aptos = true → optTruthy sc.num_no_aptos = true →
        AggMetric.countAll ∉ build_group_metrics sc ∧
          AggMetric.sumPair (sc.num_aptos.getD "") (sc.num_no_aptos.getD "")
            ∈ build_group_metrics sc) ∧
      (∀ sc : StdCols, optTruthy sc.num_aptos = false ∨ optTruthy sc.num_no_aptos = false →
        AggMetric.countAll ∈ build_group_metrics sc) := by
  refine ⟨by decide, by decide, ?_, ?_⟩
  · intro sc ha hb
    constructor <;> simp [build_group_metrics, ha, hb]
  · intro sc h
    rcases h with h | h <;> simp [build_group_metrics, h]

/-- C5 witness: both count columns resolve for the example file, so the
total metric is the pass+fail sum, not a row count; with no resolvable
count columns the total degrades to COUNT(*). -/
theorem grouped_query_thm_witness :
    AggMetric.countAll ∉ build_group_metrics (stdOf c3Input) ∧
      AggMetric.countAll ∈ build_group_metrics
        (StdCols.mk none none none none none none none none none) :=
  ⟨(grouped_query_thm.2.2.1 (stdOf c3Input) (by decide) (by decide)).1,
    grouped_query_thm.2.2.2
      (StdCols.mk none none none none none none none none none) (Or.inl rfl)⟩
